import Mathlib

/-!
Shallow embedding of the NanoJeff CPU and its test harness
(`nanojeff_sol.py`): an 8-bit educational CPU with 16 opcodes, four 8-bit
registers, a 256-byte instruction store, a 256-byte data store and a
memory-mapped IO port at data address 255.

All machine words are modelled as `Nat` with explicit truncation `% 256`
(8-bit signals), `% 16` (4-bit fields), `% 4` (2-bit fields) exactly where
the corresponding Amaranth signal width truncates.
-/

namespace NanoJeff

/-! Opcode encodings, from the `OpCode` enum (shape=4). -/

def opSL  : Nat := 0b0000
def opSR  : Nat := 0b0001
def opNOT : Nat := 0b0010
def opAND : Nat := 0b0011
def opOR  : Nat := 0b0100
def opXOR : Nat := 0b0101
def opADD : Nat := 0b0110
def opSLT : Nat := 0b0111
def opLW  : Nat := 0b1000
def opSW  : Nat := 0b1001
def opLI  : Nat := 0b1010
def opLUI : Nat := 0b1011
def opJR  : Nat := 0b1100
def opBZ  : Nat := 0b1101
def opJI  : Nat := 0b1110
def opJIR : Nat := 0b1111

/-! Instruction decode (`opcode`, `a`, `b`, `imm`, `simm` signals).
The instruction signal is 8 bits wide, hence the leading `% 256`. -/

/-- Signal `opcode`: `instruction[4:]`, the top nibble. -/
def opcode (inst : Nat) : Nat := inst % 256 / 16

/-- Signal `a`: `instruction[2:4]`, a 2-bit register index. -/
def aField (inst : Nat) : Nat := inst / 4 % 4

/-- Signal `b`: `instruction[0:2]`, a 2-bit register index. -/
def bField (inst : Nat) : Nat := inst % 4

/-- Signal `imm`: `instruction[:4]`, the low nibble. -/
def immField (inst : Nat) : Nat := inst % 16

/-- Signal `simm`: declared as `Signal(2)` and assigned `instruction[:]`,
so the full instruction is truncated to its low TWO bits and the value is
unsigned (a 2-bit `Signal` carries no sign). -/
def simmField (inst : Nat) : Nat := inst % 4

/-- Effective register index `a`: the comb assignments `a.eq(0)` in the
`LI` and `LUI` cases override the decoded field (last assignment wins),
for both the read port and the write port address. -/
def aEff (inst : Nat) : Nat :=
  if opcode inst = opLI ∨ opcode inst = opLUI then 0 else aField inst

/-- Signal `we` (register write enable): defaults to 1, overridden to 0 in
the `SW`, `BZ`, `JI` and `JIR` cases. -/
def regWE (inst : Nat) : Prop :=
  ¬(opcode inst = opSW ∨ opcode inst = opBZ ∨ opcode inst = opJI ∨ opcode inst = opJIR)

instance (inst : Nat) : Decidable (regWE inst) :=
  inferInstanceAs (Decidable (¬(opcode inst = opSW ∨ opcode inst = opBZ ∨
    opcode inst = opJI ∨ opcode inst = opJIR)))

/-- Signal `data_write`: defaults to 0, raised only in the `SW` case. -/
def dataWrite (inst : Nat) : Prop := opcode inst = opSW

instance (inst : Nat) : Decidable (dataWrite inst) :=
  inferInstanceAs (Decidable (opcode inst = opSW))

/-- Signal `data_address`: `br` for `LW`, `ar` for `SW`, default 0. -/
def dataAddress (inst ar br : Nat) : Nat :=
  if opcode inst = opLW then br else if opcode inst = opSW then ar else 0

/-- Signal `data_out`: `br` in the `SW` case, default 0. -/
def dataOut (inst br : Nat) : Nat := if opcode inst = opSW then br else 0

/-- Signal `wd` (register write-back data, an 8-bit signal): the value each
opcode case assigns, truncated to 8 bits where the expression can exceed
them. `ar`, `br`, `pc` and `dataIn` are 8-bit values (below 256). -/
def wd (inst ar br pc dataIn : Nat) : Nat :=
  if opcode inst = opSL then (ar <<< br) % 256
  else if opcode inst = opSR then ar >>> br
  else if opcode inst = opNOT then 255 - br
  else if opcode inst = opAND then ar &&& br
  else if opcode inst = opOR then ar ||| br
  else if opcode inst = opXOR then ar ^^^ br
  else if opcode inst = opADD then (ar + br) % 256
  else if opcode inst = opSLT then (if ar < br then 1 else 0)
  else if opcode inst = opLW then dataIn
  else if opcode inst = opLI then (ar &&& 0xf0) ||| immField inst
  else if opcode inst = opLUI then (ar &&& 0x0f) ||| (immField inst <<< 4)
  else if opcode inst = opJR then (pc + 1) % 256
  else 0

/-- Next value of the 8-bit `program_counter`: default `pc + 1`, overridden
by the jump and branch cases.  `JIR` computes `pc - 1 - imm` in twos
complement, which over `Nat` is `(pc + 256 - 1 - imm) % 256`. -/
def pcNext (inst ar br pc : Nat) : Nat :=
  if opcode inst = opJR then br
  else if opcode inst = opBZ then
    (if ar ≠ 0 then (pc + 1 + simmField inst) % 256 else (pc + 1) % 256)
  else if opcode inst = opJI then (pc + 1 + immField inst) % 256
  else if opcode inst = opJIR then (pc + (255 - immField inst)) % 256
  else (pc + 1) % 256

/-- The machine state of the elaborated `Harness`: program counter, the four
8-bit registers (`regfile`), the 256-byte data memory (`dmem`), the output
latch (`leds`) and the instruction memory (`imem`).  Memories are total
functions; the hardware only ever indexes them below their depth. -/
structure State where
  pc : Nat
  regs : Nat → Nat
  dmem : Nat → Nat
  leds : Nat
  imem : Nat → Nat

/-- The instruction fetched this cycle: the `imem` read at `program_counter`. -/
def fetched (s : State) : Nat := s.imem (s.pc % 256) % 256

/-- Signal `ar`: the register file read at the effective `a` index. -/
def arOf (s : State) : Nat := s.regs (aEff (fetched s)) % 256

/-- Signal `br`: the register file read at the `b` index. -/
def brOf (s : State) : Nat := s.regs (bField (fetched s)) % 256

/-- The value of `cpu.data_address` this cycle. -/
def effAddr (s : State) : Nat := dataAddress (fetched s) (arOf s) (brOf s)

/-- Signal `cpu.data_in`: the harness overrides the combinational `dmem`
read with the `buttons` input when the data address is 255. -/
def dinOf (s : State) (buttons : Nat) : Nat :=
  if effAddr s = 255 then buttons % 256 else s.dmem (effAddr s) % 256

/-- Signal `wd` as wired in the harness. -/
def wdOf (s : State) (buttons : Nat) : Nat :=
  wd (fetched s) (arOf s) (brOf s) (s.pc % 256) (dinOf s buttons)

/-- One clock cycle of the elaborated harness: all combinational signals
are functions of the pre-cycle state and the `buttons` input, and all
synchronous state (pc, regfile, dmem, leds) commits at the cycle boundary.
The write port of `dmem` is enabled by `cpu.data_write` unconditionally,
while `leds` latches `cpu.data_out` only when the data address is 255 and
`data_write` is raised. -/
def step (s : State) (buttons : Nat) : State :=
  { pc := pcNext (fetched s) (arOf s) (brOf s) (s.pc % 256)
    regs := if regWE (fetched s) then
        Function.update s.regs (aEff (fetched s)) (wdOf s buttons)
      else s.regs
    dmem := if dataWrite (fetched s) then
        Function.update s.dmem (effAddr s) (dataOut (fetched s) (brOf s))
      else s.dmem
    leds := if effAddr s = 255 ∧ dataWrite (fetched s) then
        dataOut (fetched s) (brOf s)
      else s.leds
    imem := s.imem }

/-- Run the harness for `n` cycles; `inputs k` is the `buttons` value
sampled during cycle `k`. -/
def run (s : State) (inputs : Nat → Nat) : Nat → State
  | 0 => s
  | n + 1 => step (run s inputs n) (inputs n)

/-- The state after elaboration and reset: `program_counter`, the register
file, `dmem` and `leds` all reset to 0, and `imem` initialized from the
program list, padded with zeros (Amaranth `Memory` init semantics), each
entry truncated to the 8-bit shape. -/
def initState (program : List Nat) : State :=
  { pc := 0
    regs := fun _ => 0
    dmem := fun _ => 0
    leds := 0
    imem := fun i => program.getD i 0 % 256 }

/-- The setup-time error for an oversized program. -/
def memInitError : String :=
  "memory initialization value count exceeds memory depth"

/-- Modelled from the spec: constructing and elaborating the `Harness`.
The length check itself lives in the Amaranth `Memory` library (not under
the sources here): an `init` sequence longer than the memory depth (256) is
rejected with an error when the design is set up, before any cycle runs. -/
def mkHarness (program : List Nat) : Except String State :=
  if program.length ≤ 256 then Except.ok (initState program)
  else Except.error memInitError

/-- The reference test program `increment_leds` (14 bytes). -/
def increment_leds : List Nat :=
  [0b01010000,
   0b01010101,
   0b01011010,
   0b01011111,
   0b10101111,
   0b10111111,
   0b01101100,
   0b01010000,
   0b10011100,
   0b10100001,
   0b01100100,
   0b10011100,
   0b01100001,
   0b11110001]

/-- The cycle starting at `s` performs a committed data-store write to
address `A`: `data_write` is raised and the data address equals `A`. -/
def writesAddr (s : State) (A : Nat) : Prop :=
  dataWrite (fetched s) ∧ effAddr s = A

/-- The branch target the spec prescribes for a taken `BZ`: the low nibble
of the instruction reinterpreted as a 4-bit twos-complement value (so
values 8..15 stand for -8..-1, that is, adding 240 modulo 256) added to
`PC + 1`, all modulo 256. -/
def specBZNext (pc inst : Nat) : Nat :=
  (pc + 1 + inst % 16 + (if 8 ≤ inst % 16 then 240 else 0)) % 256

/-- A harness state holding the given register values, with every
instruction-store entry equal to `inst`, used to exercise single
instructions concretely. -/
def testState (inst r0 r1 r2 r3 : Nat) : State :=
  { pc := 0
    regs := fun n => if n = 0 then r0 else if n = 1 then r1 else if n = 2 then r2 else r3
    dmem := fun _ => 0
    leds := 0
    imem := fun _ => inst }

/-- Concrete state for the taken-`BZ` case: the instruction 0b11010100 is
`BZ` with `a` = 1 and low nibble 0b0100, and register 1 holds 1 (nonzero). -/
def bzTest : State := testState 0b11010100 0 1 0 0

/-- Concrete state for `LI`: instruction 0b10100101 (`a` field = 1, `imm` =
0b0101) with register 0 holding 0b10100011 and register 1 holding 77. -/
def liTest : State := testState 0b10100101 0b10100011 77 0 0

/-- Concrete state for `LUI`: instruction 0b10110101 (`a` field = 1, `imm` =
0b0101) with register 0 holding 0b10100011 and register 1 holding 77. -/
def luiTest : State := testState 0b10110101 0b10100011 77 0 0

/-- Concrete two-instruction program for the store/load round trip:
address 0 holds `SW` (a=1, b=2), address 1 holds `LW` (a=3, b=1);
register 1 holds the data address 5 and register 2 the value 99. -/
def swLwTest : State :=
  { pc := 0
    regs := fun n => if n = 1 then 5 else if n = 2 then 99 else 0
    dmem := fun _ => 0
    leds := 0
    imem := fun i => if i = 0 then 0b10010110 else if i = 1 then 0b10001101 else 0 }

/-- Concrete state for `SW` to the IO address: instruction 0b10010110
(`SW`, a=1, b=2), register 1 holding 255 and register 2 holding 42. -/
def swIoTest : State := testState 0b10010110 0 255 42 0

/-- Concrete state for `LW` from the IO address: instruction 0b10001101
(`LW`, a=3, b=1), register 1 holding 255 and a nonzero byte stored at
data address 255. -/
def lwIoTest : State :=
  { pc := 0
    regs := fun n => if n = 1 then 255 else 0
    dmem := fun n => if n = 255 then 123 else 0
    leds := 0
    imem := fun _ => 0b10001101 }

attribute [simp] opSL opSR opNOT opAND opOR opXOR opADD opSLT opLW opSW opLI opLUI opJR opBZ opJI opJIR

/-! Helper lemmas. -/

theorem arOf_lt (s : State) : arOf s < 256 := Nat.mod_lt _ (by omega)

theorem brOf_lt (s : State) : brOf s < 256 := Nat.mod_lt _ (by omega)

theorem shiftRight_le_self (n k : Nat) : n >>> k ≤ n := by
  rw [Nat.shiftRight_eq_div_pow]
  exact Nat.div_le_self n (2 ^ k)

theorem and_lt_256 (x y : Nat) (h : y < 256) : x &&& y < 256 := @Nat.and_lt_two_pow x y 8 h

theorem or_lt_256 {x y : Nat} (hx : x < 256) (hy : y < 256) : x ||| y < 256 :=
  @Nat.or_lt_two_pow x y 8 hx hy

theorem xor_lt_256 {x y : Nat} (hx : x < 256) (hy : y < 256) : x ^^^ y < 256 :=
  @Nat.xor_lt_two_pow x y 8 hx hy

theorem step_pc_eq (s : State) (i : Nat) :
    (step s i).pc = pcNext (fetched s) (arOf s) (brOf s) (s.pc % 256) := rfl

theorem step_dmem_eq (s : State) (i : Nat) :
    (step s i).dmem = if dataWrite (fetched s) then
      Function.update s.dmem (effAddr s) (dataOut (fetched s) (brOf s)) else s.dmem := rfl

theorem step_leds_eq (s : State) (i : Nat) :
    (step s i).leds = if effAddr s = 255 ∧ dataWrite (fetched s) then
      dataOut (fetched s) (brOf s) else s.leds := rfl

theorem step_imem_eq (s : State) (i : Nat) : (step s i).imem = s.imem := rfl

theorem step_regs_of_we (s : State) (i : Nat) (h : regWE (fetched s)) :
    (step s i).regs = Function.update s.regs (aEff (fetched s)) (wdOf s i) := by
  simp [step, h]

theorem step_regs_of_not_we (s : State) (i : Nat) (h : ¬ regWE (fetched s)) :
    (step s i).regs = s.regs := by
  simp [step, h]

theorem step_regs_alu (s : State) (i : Nat) (h : regWE (fetched s))
    (ha : ¬(opcode (fetched s) = opLI ∨ opcode (fetched s) = opLUI)) :
    (step s i).regs (aField (fetched s)) = wdOf s i := by
  have haEq : aEff (fetched s) = aField (fetched s) := by
    unfold aEff; rw [if_neg ha]
  rw [step_regs_of_we s i h, haEq, Function.update_same]

theorem dmem_frame_step (s : State) (i A : Nat) (h : ¬ writesAddr s A) :
    (step s i).dmem A = s.dmem A := by
  by_cases hw : dataWrite (fetched s)
  · have hne : effAddr s ≠ A := fun hA => h ⟨hw, hA⟩
    rw [step_dmem_eq, if_pos hw, Function.update_noteq hne.symm]
  · rw [step_dmem_eq, if_neg hw]

/-! Claim theorems. -/

/-- C1: the specification says the taken `BZ` adds the 4-bit twos-complement
immediate sign_extend(simm, 4) to `PC + 1`; the code instead declares `simm`
as an UNSIGNED 2-bit signal and assigns the whole instruction to it, so only
the low two instruction bits survive, zero-extended.  At `bzTest` (a `BZ`
with nonzero `ar` and immediate nibble 0b0100) the code falls through to
`PC + 1 = 1`, while the specified target is `PC + 1 + 4 = 5`. -/
theorem C1_bz_simm_is_2bit_unsigned :
    (step bzTest 0).pc = 1 ∧ specBZNext 0 0b11010100 = 5 ∧
    simmField 0b11010100 = 0 ∧ arOf bzTest ≠ 0 := by
  decide

/-- C2: for `LI` and `LUI` both the register read `ar` and the register
write target register 0, whatever the instruction `a` bits are, and the
committed value is `(R0 &&& 0xF0) ||| imm` for `LI` and
`(R0 &&& 0x0F) ||| (imm <<< 4)` for `LUI`. -/
theorem C2_li_lui_target_r0 (s : State) (i : Nat) :
    (opcode (fetched s) = opLI →
      (step s i).regs =
        Function.update s.regs 0 ((s.regs 0 % 256 &&& 0xf0) ||| immField (fetched s)))
  ∧ (opcode (fetched s) = opLUI →
      (step s i).regs =
        Function.update s.regs 0 ((s.regs 0 % 256 &&& 0x0f) ||| (immField (fetched s) <<< 4))) := by
  constructor <;> intro h <;>
    rw [step_regs_of_we s i (by simp [regWE, h]),
      show aEff (fetched s) = 0 from by simp [aEff, h]] <;>
    simp [wdOf, wd, h, arOf, aEff]

/-- C2 witness: with register 0 holding 0b10100011 and immediate 0b0101
(the instruction `a` field being 1, and register 1 holding 77), `LI` makes
register 0 equal 0b10100101 and `LUI` makes it 0b01010011; register 1 is
untouched in both cases. -/
theorem C2_li_lui_target_r0_witness :
    (step liTest 0).regs 0 = 0b10100101 ∧ (step liTest 0).regs 1 = 77 ∧
    (step luiTest 0).regs 0 = 0b01010011 ∧ (step luiTest 0).regs 1 = 77 := by
  have h1 := (C2_li_lui_target_r0 liTest 0).1 (by decide)
  have h2 := (C2_li_lui_target_r0 luiTest 0).2 (by decide)
  refine ⟨(congrFun h1 0).trans (by decide), (congrFun h1 1).trans (by decide),
    (congrFun h2 0).trans (by decide), (congrFun h2 1).trans (by decide)⟩

/-- C5: for every machine state, hence for every pair of 8-bit values held
in the registers `a` and `b`, the opcodes SL, SR, AND, OR, XOR and ADD
write back the corresponding bitwise or arithmetic function of `ar` and
`br` truncated to 8 bits, and SLT writes back exactly 1 when `ar < br`
as unsigned values and exactly 0 otherwise. -/
theorem C5_alu_writeback (s : State) (i : Nat) :
    (opcode (fetched s) = opSL →
      (step s i).regs (aField (fetched s)) = (arOf s <<< brOf s) % 256)
  ∧ (opcode (fetched s) = opSR →
      (step s i).regs (aField (fetched s)) = (arOf s >>> brOf s) % 256)
  ∧ (opcode (fetched s) = opAND →
      (step s i).regs (aField (fetched s)) = (arOf s &&& brOf s) % 256)
  ∧ (opcode (fetched s) = opOR →
      (step s i).regs (aField (fetched s)) = (arOf s ||| brOf s) % 256)
  ∧ (opcode (fetched s) = opXOR →
      (step s i).regs (aField (fetched s)) = (arOf s ^^^ brOf s) % 256)
  ∧ (opcode (fetched s) = opADD →
      (step s i).regs (aField (fetched s)) = (arOf s + brOf s) % 256)
  ∧ (opcode (fetched s) = opSLT →
      (step s i).regs (aField (fetched s)) = if arOf s < brOf s then 1 else 0) := by
  refine ⟨?_, ?_, ?_, ?_, ?_, ?_, ?_⟩ <;> intro h <;>
    rw [step_regs_alu s i (by simp [regWE, h]) (by simp [h])] <;>
    simp [wdOf, wd, h] <;>
    first
      | exact (Nat.mod_eq_of_lt (Nat.lt_of_le_of_lt (shiftRight_le_self _ _) (arOf_lt s))).symm
      | exact (Nat.mod_eq_of_lt (and_lt_256 _ _ (brOf_lt s))).symm
      | exact (Nat.mod_eq_of_lt (or_lt_256 (arOf_lt s) (brOf_lt s))).symm
      | exact (Nat.mod_eq_of_lt (xor_lt_256 (arOf_lt s) (brOf_lt s))).symm

/-- C5 witness: concrete checks of every listed opcode on registers holding
7 and 2 (and 2 and 7 for SLT both ways). -/
theorem C5_alu_writeback_witness :
    (step (testState 0b00000110 0 7 2 0) 0).regs 1 = 28 ∧
    (step (testState 0b00010110 0 7 2 0) 0).regs 1 = 1 ∧
    (step (testState 0b00110110 0 7 2 0) 0).regs 1 = 2 ∧
    (step (testState 0b01000110 0 7 2 0) 0).regs 1 = 7 ∧
    (step (testState 0b01010110 0 7 2 0) 0).regs 1 = 5 ∧
    (step (testState 0b01100110 0 250 9 0) 0).regs 1 = 3 ∧
    (step (testState 0b01110110 0 7 2 0) 0).regs 1 = 0 ∧
    (step (testState 0b01110110 0 2 7 0) 0).regs 1 = 1 := by
  refine ⟨((C5_alu_writeback (testState 0b00000110 0 7 2 0) 0).1 (by decide)).trans (by decide),
    ((C5_alu_writeback (testState 0b00010110 0 7 2 0) 0).2.1 (by decide)).trans (by decide),
    ((C5_alu_writeback (testState 0b00110110 0 7 2 0) 0).2.2.1 (by decide)).trans (by decide),
    ((C5_alu_writeback (testState 0b01000110 0 7 2 0) 0).2.2.2.1 (by decide)).trans (by decide),
    ((C5_alu_writeback (testState 0b01010110 0 7 2 0) 0).2.2.2.2.1 (by decide)).trans (by decide),
    ((C5_alu_writeback (testState 0b01100110 0 250 9 0) 0).2.2.2.2.2.1 (by decide)).trans (by decide),
    ((C5_alu_writeback (testState 0b01110110 0 7 2 0) 0).2.2.2.2.2.2 (by decide)).trans (by decide),
    ((C5_alu_writeback (testState 0b01110110 0 2 7 0) 0).2.2.2.2.2.2 (by decide)).trans (by decide)⟩

/-- C4: a committed write to data address 255 (the only committed data
writes are `SW` cycles, which raise `data_write`) latches the value read
from register `b` into `leds`, and a data read of address 255 (an `LW`
cycle) always returns the current `buttons` value: the loaded register
receives the input port, not any stored byte. -/
theorem C4_io_port (s : State) (i : Nat) :
    (opcode (fetched s) = opSW → arOf s = 255 →
      (step s i).leds = brOf s)
  ∧ (opcode (fetched s) = opLW → brOf s = 255 →
      dinOf s i = i % 256 ∧ (step s i).regs (aField (fetched s)) = i % 256) := by
  constructor
  · intro h hA
    have heff : effAddr s = 255 := by simp [effAddr, dataAddress, h, hA]
    rw [step_leds_eq, if_pos ⟨heff, by simp [dataWrite, h]⟩]
    simp [dataOut, h]
  · intro h hA
    have heff : effAddr s = 255 := by simp [effAddr, dataAddress, h, hA]
    have hdin : dinOf s i = i % 256 := by rw [dinOf, if_pos heff]
    refine ⟨hdin, ?_⟩
    rw [step_regs_alu s i (by simp [regWE, h]) (by simp [h])]
    simp [wdOf, wd, h, hdin]

/-- C4 witness: storing register 2 (42) through address 255 latches 42
into `leds`; loading from address 255 with `buttons` = 7 loads 7 into the
destination register even though the byte stored at data index 255 is
123. -/
theorem C4_io_port_witness :
    (step swIoTest 0).leds = 42 ∧
    dinOf lwIoTest 7 = 7 ∧ (step lwIoTest 7).regs 3 = 7 ∧ lwIoTest.dmem 255 = 123 := by
  have h1 := (C4_io_port swIoTest 0).1 (by decide) (by decide)
  have h2 := (C4_io_port lwIoTest 7).2 (by decide) (by decide)
  exact ⟨h1.trans (by decide), h2.1.trans (by decide), h2.2.trans (by decide), by decide⟩

/-- C6: `JR` loads the program counter from register `b` and writes the
link value `PC + 1` (mod 256) into register `a`; `JI` sets the program
counter to `PC + 1 + imm` (mod 256) with the register write disabled;
`JIR` sets it to `PC - 1 - imm` (mod 256, stated over ℤ) with the register
write disabled. -/
theorem C6_jumps (s : State) (i : Nat) :
    (opcode (fetched s) = opJR →
      (step s i).pc = brOf s ∧
      (step s i).regs = Function.update s.regs (aField (fetched s)) ((s.pc % 256 + 1) % 256))
  ∧ (opcode (fetched s) = opJI →
      (step s i).pc = (s.pc % 256 + 1 + immField (fetched s)) % 256 ∧
      ¬ regWE (fetched s) ∧ (step s i).regs = s.regs)
  ∧ (opcode (fetched s) = opJIR →
      ((step s i).pc : Int) = (((s.pc % 256 : Nat) : Int) - 1 - (immField (fetched s) : Int)) % 256 ∧
      ¬ regWE (fetched s) ∧ (step s i).regs = s.regs) := by
  refine ⟨?_, ?_, ?_⟩ <;> intro h
  · constructor
    · rw [step_pc_eq]; simp [pcNext, h]
    · rw [step_regs_of_we s i (by simp [regWE, h]),
        show aEff (fetched s) = aField (fetched s) from by unfold aEff; rw [if_neg (by simp [h])]]
      simp [wdOf, wd, h]
  · have hwe : ¬ regWE (fetched s) := by simp [regWE, h]
    refine ⟨?_, hwe, step_regs_of_not_we s i hwe⟩
    rw [step_pc_eq]; simp [pcNext, h]
  · have hwe : ¬ regWE (fetched s) := by simp [regWE, h]
    refine ⟨?_, hwe, step_regs_of_not_we s i hwe⟩
    have hpc : (step s i).pc = (s.pc % 256 + (255 - immField (fetched s))) % 256 := by
      rw [step_pc_eq]; simp [pcNext, h]
    rw [hpc]
    have h1 : immField (fetched s) < 16 := Nat.mod_lt _ (by omega)
    have h2 : s.pc % 256 < 256 := Nat.mod_lt _ (by omega)
    omega

/-- C6 witness: from `pc` = 0, `JR` with register 1 holding 200 jumps to
200 and writes the link value 1 into register 3; `JI` with immediate 6
jumps to 7; `JIR` with immediate 6 wraps to 249; the register file is
unchanged by `JI` and `JIR`. -/
theorem C6_jumps_witness :
    (step (testState 0b11001101 0 200 0 0) 0).pc = 200 ∧
    (step (testState 0b11001101 0 200 0 0) 0).regs 3 = 1 ∧
    (step (testState 0b11100110 0 0 0 0) 0).pc = 7 ∧
    ((step (testState 0b11110110 0 0 0 0) 0).pc : Int) = 249 ∧
    (step (testState 0b11100110 0 9 9 9) 0).regs = (testState 0b11100110 0 9 9 9).regs := by
  have h1 := (C6_jumps (testState 0b11001101 0 200 0 0) 0).1 (by decide)
  have h2 := (C6_jumps (testState 0b11100110 0 0 0 0) 0).2.1 (by decide)
  have h3 := (C6_jumps (testState 0b11110110 0 0 0 0) 0).2.2 (by decide)
  have h4 := (C6_jumps (testState 0b11100110 0 9 9 9) 0).2.1 (by decide)
  exact ⟨h1.1.trans (by decide), (congrFun h1.2 3).trans (by decide),
    h2.1.trans (by decide), h3.1.trans (by decide), h4.2.2⟩

/-- C8: the instruction store is never modified: a single cycle leaves
`imem` untouched, and hence any run of any length from any state leaves
every instruction-store entry at its initial value. -/
theorem C8_imem_never_written :
    (∀ s i, (step s i).imem = s.imem) ∧
    ∀ s inputs n, (run s inputs n).imem = s.imem := by
  refine ⟨fun s i => rfl, fun s inputs n => ?_⟩
  induction n with
  | zero => rfl
  | succ n ih => rw [run, step_imem_eq, ih]

/-- C10: an `SW` cycle addressing 255 writes register `b` into the backing
data store at index 255 as well (the write port stays enabled); the value
an `LW` cycle at address 255 loads is the input port, `i % 256`,
independent of the stored byte; and any cycle whose opcode is not `SW`
leaves the whole data store unchanged, since `data_write` is raised only
in the `SW` case. -/
theorem C10_dmem_frame (s : State) (i : Nat) :
    (opcode (fetched s) = opSW → arOf s = 255 →
      (step s i).dmem 255 = brOf s)
  ∧ (opcode (fetched s) = opLW → brOf s = 255 →
      wdOf s i = i % 256)
  ∧ (opcode (fetched s) ≠ opSW → (step s i).dmem = s.dmem) := by
  refine ⟨?_, ?_, ?_⟩
  · intro h hA
    have heff : effAddr s = 255 := by simp [effAddr, dataAddress, h, hA]
    rw [step_dmem_eq, if_pos (show dataWrite (fetched s) from by simp [dataWrite, h]),
      ← heff, Function.update_same]
    simp [dataOut, h]
  · intro h hA
    have heff : effAddr s = 255 := by simp [effAddr, dataAddress, h, hA]
    simp [wdOf, wd, h, dinOf, heff]
  · intro h
    rw [step_dmem_eq, if_neg (show ¬ dataWrite (fetched s) from fun hd => h hd)]

/-- C10 witness: the `SW`-to-255 cycle stores 42 at data index 255; the
`LW`-from-255 cycle computes write-back 7 from `buttons` = 7 although the
stored byte there is 123; an `ADD` cycle leaves the data store unchanged. -/
theorem C10_dmem_frame_witness :
    (step swIoTest 0).dmem 255 = 42 ∧
    wdOf lwIoTest 7 = 7 ∧
    (step (testState 0b01100110 0 7 2 0) 0).dmem = (testState 0b01100110 0 7 2 0).dmem := by
  have h1 := (C10_dmem_frame swIoTest 0).1 (by decide) (by decide)
  have h2 := (C10_dmem_frame lwIoTest 7).2.1 (by decide) (by decide)
  have h3 := (C10_dmem_frame (testState 0b01100110 0 7 2 0) 0).2.2 (by decide)
  exact ⟨h1.trans (by decide), h2.trans (by decide), h3⟩

/-- C7: one cycle is a pure function of the machine state and the sampled
input-port value, so two runs of any length from the same state under
pointwise-equal input sequences coincide; in particular running the
reference 14-byte program for 64 cycles under a fixed input sequence gives
identical trajectories across runs. -/
theorem C7_deterministic (f g : Nat → Nat) (hfg : ∀ k, f k = g k) :
    (∀ s n, run s f n = run s g n) ∧
    run (initState increment_leds) f 64 = run (initState increment_leds) g 64 := by
  have hrun : ∀ s n, run s f n = run s g n := by
    intro s n
    induction n with
    | zero => rfl
    | succ n ih => rw [run, run, ih, hfg n]
  exact ⟨hrun, hrun _ 64⟩

/-- C7 witness: the 64-cycle trajectory of the reference program under the
constant-zero input sequence equals itself, via the determinism theorem. -/
theorem C7_deterministic_witness :
    run (initState increment_leds) (fun _ => 0) 64
      = run (initState increment_leds) (fun _ => 0) 64 :=
  (C7_deterministic (fun _ => 0) (fun _ => 0) (fun _ => rfl)).2

/-- C9: a program of at most 256 entries (of 8-bit values) is accepted at
setup and loaded verbatim into the instruction store starting at address 0,
with every unspecified address defaulting to 0, while a program of more
than 256 entries makes setup fail with an error. -/
theorem C9_setup (program : List Nat) (h8 : ∀ x ∈ program, x < 256) :
    (program.length ≤ 256 →
      mkHarness program = Except.ok (initState program)
      ∧ (∀ j, j < program.length → (initState program).imem j = program.getD j 0)
      ∧ (∀ j, program.length ≤ j → (initState program).imem j = 0))
  ∧ (256 < program.length → ∃ e, mkHarness program = Except.error e) := by
  constructor
  · intro hlen
    refine ⟨by unfold mkHarness; rw [if_pos hlen], fun j hj => ?_, fun j hj => ?_⟩
    · have hx : program.getD j 0 = program[j] := by
        rw [List.getD_eq_getElem?_getD, List.getElem?_eq_getElem hj, Option.getD_some]
      show program.getD j 0 % 256 = program.getD j 0
      rw [hx]
      exact Nat.mod_eq_of_lt (h8 _ (program.getElem_mem hj))
    · show program.getD j 0 % 256 = 0
      rw [List.getD_eq_default _ _ hj]
  · intro hlen
    exact ⟨memInitError, by unfold mkHarness; rw [if_neg (by omega)]⟩

/-- C9 witness: the two-byte program [18, 255] is accepted, entry 1 reads
back 255 and entry 7 defaults to 0; a 300-entry program is rejected at
setup. -/
theorem C9_setup_witness :
    (mkHarness [18, 255] = Except.ok (initState [18, 255])
      ∧ (initState [18, 255]).imem 1 = 255
      ∧ (initState [18, 255]).imem 7 = 0)
    ∧ ∃ e, mkHarness (List.replicate 300 7) = Except.error e := by
  have h1 := (C9_setup [18, 255] (by decide)).1 (by decide)
  have h2 := (C9_setup (List.replicate 300 7)
    (fun x hx => by rw [List.eq_of_mem_replicate hx]; omega)).2
    (by rw [List.length_replicate]; omega)
  exact ⟨⟨h1.1, h1.2.1 1 (by decide), h1.2.2 7 (by decide)⟩, h2⟩

/-- C3: an `SW` cycle stores the value of register `b` at data address
`A = ar` and performs no register-file write (the write enable is
deasserted); if no later cycle before the load writes to `A`, an `LW`
cycle addressing `A ≠ 255` then loads exactly the stored value into its
destination register. -/
theorem C3_store_then_load (s : State) (inputs : Nat → Nat) (n A : Nat)
    (hSW : opcode (fetched s) = opSW)
    (hA : arOf s = A)
    (hA255 : A ≠ 255)
    (hn : 1 ≤ n)
    (hframe : ∀ k, 1 ≤ k → k < n → ¬ writesAddr (run s inputs k) A)
    (hLW : opcode (fetched (run s inputs n)) = opLW)
    (hAddr : brOf (run s inputs n) = A) :
    (run s inputs (n + 1)).regs (aField (fetched (run s inputs n))) = brOf s
    ∧ ¬ regWE (fetched s)
    ∧ (step s (inputs 0)).regs = s.regs := by
  have hwe : ¬ regWE (fetched s) := by simp [regWE, hSW]
  have heffSW : effAddr s = A := by simp [effAddr, dataAddress, hSW, hA]
  have hst : (step s (inputs 0)).dmem A = brOf s := by
    rw [step_dmem_eq, if_pos (show dataWrite (fetched s) from by simp [dataWrite, hSW]),
      ← heffSW, Function.update_same]
    simp [dataOut, hSW]
  have hdmem : ∀ k, 1 ≤ k → k ≤ n → (run s inputs k).dmem A = brOf s := by
    intro k
    induction k with
    | zero => intro h1 _; exact absurd h1 (by omega)
    | succ k ih =>
      intro _ h2
      by_cases hk : k = 0
      · subst hk; exact hst
      · have hk1 : 1 ≤ k := by omega
        have hfr := hframe k hk1 (by omega)
        rw [run, dmem_frame_step _ _ _ hfr]
        exact ih hk1 (by omega)
  have hdin : dinOf (run s inputs n) (inputs n) = brOf s := by
    have heffLW : effAddr (run s inputs n) = A := by
      simp [effAddr, dataAddress, hLW, hAddr]
    rw [dinOf, heffLW, if_neg hA255, hdmem n hn (le_refl n)]
    exact Nat.mod_eq_of_lt (brOf_lt s)
  refine ⟨?_, hwe, step_regs_of_not_we s (inputs 0) hwe⟩
  show (step (run s inputs n) (inputs n)).regs (aField (fetched (run s inputs n))) = brOf s
  rw [step_regs_alu _ _ (by simp [regWE, hLW]) (by simp [hLW])]
  simp [wdOf, wd, hLW, hdin]

/-- C3 witness: in `swLwTest` the cycle-0 `SW` stores 99 (register 2) at
address 5 (register 1) without touching the register file, and the cycle-1
`LW` from address 5 loads 99 into register 3. -/
theorem C3_store_then_load_witness :
    (run swLwTest (fun _ => 0) 2).regs 3 = 99
    ∧ (step swLwTest 0).regs = swLwTest.regs := by
  have h := C3_store_then_load swLwTest (fun _ => 0) 1 5 (by decide) (by decide)
    (by decide) (by omega) (fun k h1 h2 => absurd (Nat.lt_of_lt_of_le h2 h1) (by omega))
    (by decide) (by decide)
  exact ⟨h.1.trans (by decide), h.2.2⟩

end NanoJeff
